import Mathlib

/-!
Verification development for the resume-knowledge-base achievement logger.

The client component `src/agent/ResumeLogger.jsx` is embedded shallowly:
JavaScript objects holding the structured achievement record become
association lists over a string/array value type, the React component state
becomes an explicit `ComponentState` record, and each handler
(`inferStructureFromInput`, `handleInputSubmit`, the processing `useEffect`,
`handleFieldEdit`, `submitToAPI`, `resetForm`) becomes a pure function.
Asynchronous outcomes (the LLM call, the persistence fetch) are supplied as
explicit outcome values, since the network is outside the program text.
-/

/-- A JavaScript value stored in the structured-data object: either a string
or an array of strings (the only shapes the component produces or edits). -/
inductive FieldValue where
  | str (s : String)
  | arr (l : List String)
deriving DecidableEq, Repr

/-- A JavaScript object, modelled as an association list from key to value.
Objects built by the component have pairwise-distinct keys. -/
abbrev RecordObj := List (String × FieldValue)

/-- Lookup of a key in an object (`obj[k]`, `undefined` becomes `none`). -/
def objGet : RecordObj → String → Option FieldValue
  | [], _ => none
  | (k0, v0) :: rest, k => if k0 = k then some v0 else objGet rest k

/-- JavaScript object update `{...m, [k]: v}` on duplicate-free objects:
an existing key keeps its position and gets the new value, a new key is
appended at the end. -/
def objSet : RecordObj → String → FieldValue → RecordObj
  | [], k, v => [(k, v)]
  | (k0, v0) :: rest, k, v =>
      if k0 = k then (k, v) :: rest else (k0, v0) :: objSet rest k v

/-- JavaScript spread `{...base, ...ext}`: the entries of `ext` laid over
`base`, later entries overriding earlier ones. -/
def objSpread (base ext : RecordObj) : RecordObj :=
  ext.foldl (fun m p => objSet m p.1 p.2) base

/-! ## JavaScript string primitives

The string methods the component uses (`split`, `trim`, `toLowerCase`,
`substring`) are given structurally recursive models over the character
list, so that every concrete instance evaluates by kernel reduction. -/

/-- `String.split(sep)` on a character list: JavaScript split with a
one-character separator. Splitting the empty string yields `[[]]`, so the
result is never the empty list. -/
def splitCharList (sep : Char) : List Char → List (List Char)
  | [] => [[]]
  | c :: rest =>
      let r := splitCharList sep rest
      if c = sep then [] :: r
      else
        match r with
        | [] => [[c]]
        | h :: t => (c :: h) :: t

/-- JavaScript `s.split(sep)` for a one-character separator. -/
def jsSplit (s : String) (sep : Char) : List String :=
  (splitCharList sep s.toList).map String.mk

/-- JavaScript `s.trim()`: strip leading and trailing whitespace. -/
def jsTrim (s : String) : String :=
  String.mk
    (((s.toList.dropWhile Char.isWhitespace).reverse.dropWhile
        Char.isWhitespace).reverse)

/-- JavaScript `s.toLowerCase()` (characterwise lowering). -/
def jsToLower (s : String) : String :=
  String.mk (s.toList.map Char.toLower)

/-- JavaScript `s.substring(0, n)`: the first `n` characters. -/
def jsTake (s : String) (n : Nat) : String :=
  String.mk (s.toList.take n)

/-! ## The structuring operation (`inferStructureFromInput`) -/

/-- JavaScript string-or default `a || b`: the empty string is falsy. -/
def jsStringOr (a b : String) : String := if a = "" then b else a

/-- `input.split('.')[0]`: the text of `input` up to (excluding) the first
period, or all of `input` when it has no period. `jsSplit` never returns an
empty list, so the optional-chaining in the source never sees `undefined`
here. -/
def splitHead (s : String) : String :=
  match jsSplit s '.' with
  | [] => ""
  | h :: _ => h

/-- The deterministic fallback record built in the `catch` branch of
`inferStructureFromInput` (ResumeLogger.jsx lines 70-81), with the current
date supplied as `todayStr`. -/
def fallbackRecord (todayStr input : String) : RecordObj :=
  [("date", .str todayStr),
   ("title", .str (jsStringOr (jsTake (jsTrim (splitHead input)) 80) "Recent Achievement")),
   ("description", .str (jsTrim input)),
   ("tags", .arr ["Achievement"]),
   ("impact_level", .str "In Progress"),
   ("visibility", .arr ["Internal"]),
   ("resume_bullet",
     .str ("Accomplished " ++ jsStringOr (jsToLower (splitHead input)) "recent work" ++ "."))]

/-- Outcome of the LLM round trip inside the `try` block: `parsed obj` means
the fetch resolved, `response.json()` succeeded, and
`JSON.parse(data.choices[0].message.content)` produced a value whose spread
contributes the entries `obj`; `fails` covers every thrown path (fetch
rejection, non-JSON response body, missing `choices` path, malformed JSON
content). -/
inductive LLMResult where
  | fails
  | parsed (obj : RecordObj)
deriving DecidableEq, Repr

/-- `inferStructureFromInput` (ResumeLogger.jsx lines 38-83), with the
current date and the LLM outcome made explicit. On the success path it
returns `{ date: today, ...structuredJson }`; on any thrown path it returns
the deterministic fallback record. -/
def inferStructureFromInput (todayStr input : String) : LLMResult → RecordObj
  | .parsed obj => objSpread [("date", .str todayStr)] obj
  | .fails => fallbackRecord todayStr input

/-- All six data-model fields (title, description, tags, impact_level,
visibility, resume_bullet) are present in the object. -/
def populatedSix (o : RecordObj) : Prop :=
  (objGet o "title").isSome = true ∧
  (objGet o "description").isSome = true ∧
  (objGet o "tags").isSome = true ∧
  (objGet o "impact_level").isSome = true ∧
  (objGet o "visibility").isSome = true ∧
  (objGet o "resume_bullet").isSome = true

instance (o : RecordObj) : Decidable (populatedSix o) := by
  unfold populatedSix
  infer_instance

/-! ## Component state and handlers -/

/-- The five UI stages of the component. -/
inductive Stage where
  | reflection
  | input
  | processing
  | review
  | success
deriving DecidableEq, Repr

/-- The React state of `ResumeLogger` (the seven `useState` hooks,
ResumeLogger.jsx lines 19-25). -/
structure ComponentState where
  stage : Stage
  userInput : String
  structuredData : RecordObj
  isSubmitting : Bool
  editField : Option String
  apiResponse : String
  shouldProcess : Bool
deriving DecidableEq, Repr

/-- The initial values of the seven `useState` hooks. -/
def initialState : ComponentState :=
  { stage := Stage.reflection
    userInput := ""
    structuredData := []
    isSubmitting := false
    editField := none
    apiResponse := ""
    shouldProcess := false }

/-- `handleInputSubmit` (lines 85-90): on non-empty trimmed input, enter the
processing stage and raise the `shouldProcess` flag. -/
def handleInputSubmit (s : ComponentState) : ComponentState :=
  if jsTrim s.userInput ≠ "" then
    { s with stage := Stage.processing, shouldProcess := true }
  else s

/-- Outcome of the `await inferStructureFromInput(userInput)` call inside the
processing `useEffect`: `resolves r` is the normal case (the function catches
its own failures and always resolves with a record), `unexpected` is an
unexpected exception thrown in the processing block. -/
inductive InferOutcome where
  | resolves (r : RecordObj)
  | unexpected
deriving DecidableEq, Repr

/-- One run of the processing `useEffect` body (lines 92-109): when
`shouldProcess` is set and the stage is `processing`, store the resolved
record and advance to `review` (or route back to `input` on an unexpected
exception), clearing `shouldProcess` in the `finally` block either way;
otherwise do nothing. -/
def effectStep (s : ComponentState) (o : InferOutcome) : ComponentState :=
  if s.shouldProcess = true ∧ s.stage = Stage.processing then
    match o with
    | .resolves r =>
        { s with structuredData := r, stage := Stage.review, shouldProcess := false }
    | .unexpected =>
        { s with stage := Stage.input, shouldProcess := false }
  else s

/-- `handleFieldEdit` (lines 111-124): `tags` and `visibility` edits given as
a string are split on commas, trimmed entrywise and filtered of falsy (empty)
entries; any other value is stored directly under the field key. -/
def parseListInput (value : String) : List String :=
  ((jsSplit value ',').map jsTrim).filter (fun s => s ≠ "")

/-- The update `handleFieldEdit` applies to the previous structured-data
object. -/
def handleFieldEdit (prev : RecordObj) (field : String) (value : FieldValue) :
    RecordObj :=
  if field = "tags" ∨ field = "visibility" then
    let arrayValue : FieldValue :=
      match value with
      | .str s => .arr (parseListInput s)
      | v => v
    objSet prev field arrayValue
  else
    objSet prev field value

/-- Outcome of the persistence fetch in `submitToAPI`: `jsonBody r` means the
fetch resolved and `response.json()` succeeded, with `r` the (string-valued)
`result` field of the body, absent when the server omits it; `rejects m`
means the fetch rejected or the body was not JSON, the caught error carrying
message `m`. -/
inductive FetchResult where
  | rejects (errMessage : String)
  | jsonBody (result : Option String)
deriving DecidableEq, Repr

/-- The synchronous prefix of `submitToAPI` (line 127): the submit flag goes
up before the fetch is issued. -/
def submitStart (s : ComponentState) : ComponentState :=
  { s with isSubmitting := true }

/-- The continuation of `submitToAPI` once the fetch settles (lines 128-144):
`result.result || 'Entry submitted successfully!'` on a JSON body, the
caught message prefixed with `Error: ` otherwise; both paths land on the
`success` stage and lower the submit flag. -/
def submitResolve (s : ComponentState) (f : FetchResult) : ComponentState :=
  match f with
  | .jsonBody r =>
      { s with
        apiResponse :=
          jsStringOr (match r with | some v => v | none => "")
            "Entry submitted successfully!"
        stage := Stage.success
        isSubmitting := false }
  | .rejects m =>
      { s with
        apiResponse := "Error: " ++ m
        stage := Stage.success
        isSubmitting := false }

/-- `resetForm` (lines 147-153): restore the five listed hooks to their
initial values (the code does not touch `isSubmitting` or `shouldProcess`). -/
def resetForm (s : ComponentState) : ComponentState :=
  { s with
    stage := Stage.reflection
    userInput := ""
    structuredData := []
    editField := none
    apiResponse := "" }

/-- The `disabled` expression of the Analyze-with-AI button (line 224):
`stage === 'processing' || !userInput.trim()`. -/
def analyzeDisabled (s : ComponentState) : Bool :=
  decide (s.stage = Stage.processing) || decide (jsTrim s.userInput = "")

/-- The `disabled` expression of the Confirm-and-Submit button (line 533). -/
def confirmDisabled (s : ComponentState) : Bool :=
  s.isSubmitting

/-- Whether a run of the processing `useEffect` issues a structuring request
(the guard on line 94). -/
def effectTriggers (s : ComponentState) : Bool :=
  s.shouldProcess && decide (s.stage = Stage.processing)

/-- User interactions and asynchronous completions the component reacts to.
Each event is guarded by the stage whose render exposes the corresponding
control, and by the control's `disabled` expression. -/
inductive Event where
  | typeInput (text : String)
  | submitInput
  | effectRun (o : InferOutcome)
  | editToggle (field : Option String)
  | fieldEdit (field : String) (value : FieldValue)
  | backToEdit
  | confirmStart
  | confirmResolve (f : FetchResult)
  | reset
deriving DecidableEq, Repr

/-- One transition of the component: the handler attached to the event's
control, applied when that control is rendered and enabled. -/
def step (s : ComponentState) (e : Event) : ComponentState :=
  match e with
  | .typeInput t =>
      if s.stage = Stage.reflection ∨ s.stage = Stage.input then
        { s with userInput := t }
      else s
  | .submitInput =>
      if (s.stage = Stage.reflection ∨ s.stage = Stage.input) ∧
          analyzeDisabled s = false then
        handleInputSubmit s
      else s
  | .effectRun o => effectStep s o
  | .editToggle f =>
      if s.stage = Stage.review then { s with editField := f } else s
  | .fieldEdit f v =>
      if s.stage = Stage.review then
        { s with structuredData := handleFieldEdit s.structuredData f v }
      else s
  | .backToEdit =>
      if s.stage = Stage.review then { s with stage := Stage.input } else s
  | .confirmStart =>
      if s.stage = Stage.review ∧ confirmDisabled s = false then
        submitStart s
      else s
  | .confirmResolve f =>
      if s.isSubmitting = true then submitResolve s f else s
  | .reset =>
      if s.stage = Stage.success then resetForm s else s

/-! ## Entry persistence service (server side) -/

/-- A structured achievement record as received by the persistence
endpoint. -/
structure LogRecord where
  date : String
  title : String
  description : String
  tags : List String
  impact_level : String
  visibility : List String
  resume_bullet : String
deriving DecidableEq, Repr

/-- Gregorian leap-year test. -/
def isLeapYear (y : Nat) : Bool :=
  (y % 4 == 0 && y % 100 != 0) || (y % 400 == 0)

/-- Number of days in month `m` of year `y`. -/
def daysInMonth (y m : Nat) : Nat :=
  if m = 2 then (if isLeapYear y then 29 else 28)
  else if m = 4 ∨ m = 6 ∨ m = 9 ∨ m = 11 then 30
  else 31

/-- Whether `s` is a non-empty string of decimal digits. -/
def allDigits (s : String) : Bool :=
  decide (s.length > 0) && s.toList.all Char.isDigit

/-- Modelled from the spec: the persistence handler `api/add_log_entry.py` is
not among the provided sources, so date validation follows the spec's words
("Validate the `date` field parses as an ISO calendar date"): the string must
be `YYYY-MM-DD` with a month in 1..12 and a day valid for that month and
year. -/
def digitsToNat (l : List Char) : Nat :=
  l.foldl (fun acc c => acc * 10 + (c.toNat - 48)) 0

def parseIsoDate (s : String) : Option (Nat × Nat × Nat) :=
  match jsSplit s '-' with
  | [ys, ms, ds] =>
      if allDigits ys ∧ allDigits ms ∧ allDigits ds ∧
          ys.length = 4 ∧ ms.length = 2 ∧ ds.length = 2 then
        let y := digitsToNat ys.toList
        let m := digitsToNat ms.toList
        let d := digitsToNat ds.toList
        if 1 ≤ m ∧ m ≤ 12 ∧ 1 ≤ d ∧ d ≤ daysInMonth y m then
          some (y, m, d)
        else none
      else none
  | _ => none

/-- Modelled from the spec: URL-safe slug of a title — lowercase,
non-alphanumeric runs collapsed to a single separator, trimmed of
separators at both ends. -/
def slugify (t : String) : String :=
  let mapped := t.toList.map (fun c => if c.isAlphanum then c.toLower else '-')
  let collapsed :=
    mapped.foldr
      (fun c acc =>
        if c = '-' ∧ acc.head? = some '-' then acc else c :: acc) []
  String.mk
    (((collapsed.dropWhile (fun c => c = '-')).reverse.dropWhile
        (fun c => c = '-')).reverse)

/-- Modelled from the spec: storage path
`logs/<year-of-date>/<date>_<slug>.json`. -/
def entryPath (r : LogRecord) (y : Nat) : String :=
  "logs/" ++ toString y ++ "/" ++ r.date ++ "_" ++ slugify r.title ++ ".json"

/-- Modelled from the spec: serialization of the full record as JSON text
(field order fixed; string escaping is not modelled, the claims under
verification do not inspect the serialized text). -/
def serializeRecord (r : LogRecord) : String :=
  let q := fun (s : String) => "\x22" ++ s ++ "\x22"
  let arr := fun (l : List String) =>
    "[" ++ String.intercalate ", " (l.map q) ++ "]"
  "\x7b" ++ q "date" ++ ": " ++ q r.date ++ ", " ++
    q "title" ++ ": " ++ q r.title ++ ", " ++
    q "description" ++ ": " ++ q r.description ++ ", " ++
    q "tags" ++ ": " ++ arr r.tags ++ ", " ++
    q "impact_level" ++ ": " ++ q r.impact_level ++ ", " ++
    q "visibility" ++ ": " ++ arr r.visibility ++ ", " ++
    q "resume_bullet" ++ ": " ++ q r.resume_bullet ++ "\x7d"

/-- State of the server-side working copy: files on disk, the local commit
log, and how many commits have been pushed to the remote. -/
structure RepoState where
  files : List (String × String)
  commits : List String
  pushedCount : Nat
deriving DecidableEq, Repr

/-- Result returned by the persistence operation at the HTTP boundary. -/
structure LogResult where
  success : Bool
  message : String
deriving DecidableEq, Repr

/-- Whether the push credential is configured in the server environment. -/
structure ServerEnv where
  hasPushToken : Bool
deriving DecidableEq, Repr

/-- Write (or overwrite) a file in the working copy. -/
def writeFile (files : List (String × String)) (path content : String) :
    List (String × String) :=
  if files.any (fun p => p.1 == path) then
    files.map (fun p => if p.1 == path then (path, content) else p)
  else files ++ [(path, content)]

/-- Modelled from the spec: the persistence operation `addLogEntry` of
`api/add_log_entry.py` (not among the provided sources), following spec
section 4.2: validate the date and fail without touching the file system or
the repository when it does not parse; otherwise derive the slugged path,
write the serialized record, commit it, and push when a credential is
configured (a missing credential leaves the file and local commit in place
and reports failure). The "nothing to commit" case arises when the identical
file content is already present. -/
def addLogEntry (env : ServerEnv) (r : LogRecord) (st : RepoState) :
    LogResult × RepoState :=
  match parseIsoDate r.date with
  | none =>
      ({ success := false, message := "Invalid date format: " ++ r.date }, st)
  | some (y, _, _) =>
      let path := entryPath r y
      let content := serializeRecord r
      if (st.files.filter (fun p => p.1 == path)).any (fun p => p.2 == content) then
        ({ success := true, message := "Nothing to commit; entry already recorded: " ++ path },
          st)
      else
        let st1 : RepoState :=
          { st with
            files := writeFile st.files path content
            commits := st.commits ++ ["Add log entry: " ++ r.title ++ " (" ++ r.date ++ ")"] }
        if env.hasPushToken then
          ({ success := true, message := "Successfully added log entry: " ++ path },
            { st1 with pushedCount := st1.pushedCount + 1 })
        else
          ({ success := false,
             message := "Entry saved locally but push failed: missing credential" },
            st1)

/-! ## Properties of object lookup and update -/

theorem objGet_objSet_self (m : RecordObj) (k : String) (v : FieldValue) :
    objGet (objSet m k v) k = some v := by
  induction m with
  | nil => simp [objSet, objGet]
  | cons hd tl ih =>
      obtain ⟨k0, v0⟩ := hd
      by_cases h : k0 = k
      · simp [objSet, h, objGet]
      · simp [objSet, h, objGet, ih]

theorem objGet_objSet_ne (m : RecordObj) (k : String) (v : FieldValue)
    (k' : String) (h : k' ≠ k) : objGet (objSet m k v) k' = objGet m k' := by
  have h2 : ¬ (k = k') := Ne.symm h
  induction m with
  | nil => simp [objSet, objGet, h2]
  | cons hd tl ih =>
      obtain ⟨k0, v0⟩ := hd
      by_cases hk : k0 = k
      · have h3 : ¬ (k0 = k') := by rw [hk]; exact h2
        simp only [objSet, if_pos hk, objGet]
        rw [if_neg h2, if_neg h3]
      · simp only [objSet, if_neg hk, objGet, ih]

theorem objGet_objSpread_of_none (ext : RecordObj) (base : RecordObj)
    (k : String) (h : objGet ext k = none) :
    objGet (objSpread base ext) k = objGet base k := by
  induction ext generalizing base with
  | nil => simp [objSpread]
  | cons hd tl ih =>
      obtain ⟨k0, v0⟩ := hd
      by_cases hk : k0 = k
      · simp [objGet, hk] at h
      · simp only [objGet, if_neg hk] at h
        show objGet (objSpread (objSet base k0 v0) tl) k = objGet base k
        rw [ih (objSet base k0 v0) h,
          objGet_objSet_ne base k0 v0 k (Ne.symm hk)]

theorem objGet_objSpread_isSome (ext : RecordObj) (base : RecordObj)
    (k : String) (h : (objGet ext k).isSome = true) :
    (objGet (objSpread base ext) k).isSome = true := by
  induction ext generalizing base with
  | nil => simp [objGet] at h
  | cons hd tl ih =>
      obtain ⟨k0, v0⟩ := hd
      by_cases htl : (objGet tl k).isSome = true
      · exact ih (objSet base k0 v0) htl
      · have hnone : objGet tl k = none := by
          cases hcase : objGet tl k with
          | none => rfl
          | some v => rw [hcase] at htl; simp at htl
        have hk : k0 = k := by
          by_contra hkk
          rw [objGet, if_neg hkk, hnone] at h
          simp at h
        show (objGet (objSpread (objSet base k0 v0) tl) k).isSome = true
        rw [objGet_objSpread_of_none tl (objSet base k0 v0) k hnone, hk,
          objGet_objSet_self]
        rfl

/-! ## Claim theorems -/

/-- C2: on any failure of the LLM structuring call, `inferStructureFromInput`
returns exactly the deterministic fallback record: title is the input up to
the first period, trimmed and truncated to 80 characters, or the default
`Recent Achievement`; description is the trimmed raw input; tags is the
single default tag; impact_level is `In Progress`; visibility is
`["Internal"]`; resume_bullet is a templated sentence built from the first
clause of the input. As a total Lean function the fallback branch cannot
throw. -/
theorem fallback_record_deterministic (todayStr input : String) :
    inferStructureFromInput todayStr input LLMResult.fails =
      fallbackRecord todayStr input ∧
    objGet (inferStructureFromInput todayStr input LLMResult.fails) "title" =
      some (.str (jsStringOr (jsTake (jsTrim (splitHead input)) 80) "Recent Achievement")) ∧
    objGet (inferStructureFromInput todayStr input LLMResult.fails) "description" =
      some (.str (jsTrim input)) ∧
    objGet (inferStructureFromInput todayStr input LLMResult.fails) "tags" =
      some (.arr ["Achievement"]) ∧
    objGet (inferStructureFromInput todayStr input LLMResult.fails) "impact_level" =
      some (.str "In Progress") ∧
    objGet (inferStructureFromInput todayStr input LLMResult.fails) "visibility" =
      some (.arr ["Internal"]) ∧
    objGet (inferStructureFromInput todayStr input LLMResult.fails) "resume_bullet" =
      some (.str ("Accomplished " ++ jsStringOr (jsToLower (splitHead input)) "recent work" ++ ".")) ∧
    objGet (inferStructureFromInput todayStr input LLMResult.fails) "date" =
      some (.str todayStr) :=
  ⟨rfl, rfl, rfl, rfl, rfl, rfl, rfl, rfl⟩

/-- C1 (counterexample): it is not true that on every path the structuring
operation returns a record with all six fields populated and the current
date. When the LLM call succeeds but the parsed JSON object is empty (`{}`
is well-formed JSON), the result carries only the `date` key. -/
theorem structuring_not_always_populated :
    ¬ ∀ (todayStr input : String) (llm : LLMResult), input ≠ "" →
        populatedSix (inferStructureFromInput todayStr input llm) ∧
        objGet (inferStructureFromInput todayStr input llm) "date" =
          some (.str todayStr) := by
  intro h
  have h2 := (h "2026-10-12" "Shipped the importer" (.parsed []) (by decide)).1
  revert h2
  decide

/-- C1 (amended): for every non-empty input, the structuring operation
returns a record with all six fields populated and `date` equal to the
current date, on the failure paths unconditionally (LLM call throws or
returns malformed JSON), and on the success path provided the parsed LLM
JSON object supplies the six fields and does not itself carry a `date` key
(the source spreads the parsed object over the date, so a `date` key in the
LLM output would override the current date). -/
theorem structuring_populated_amended (todayStr input : String)
    (llm : LLMResult) (hin : input ≠ "")
    (hok : ∀ obj, llm = LLMResult.parsed obj →
      populatedSix obj ∧ objGet obj "date" = none) :
    populatedSix (inferStructureFromInput todayStr input llm) ∧
    objGet (inferStructureFromInput todayStr input llm) "date" =
      some (.str todayStr) := by
  cases llm with
  | fails => exact ⟨⟨rfl, rfl, rfl, rfl, rfl, rfl⟩, rfl⟩
  | parsed obj =>
      obtain ⟨hsix, hdate⟩ := hok obj rfl
      obtain ⟨p1, p2, p3, p4, p5, p6⟩ := hsix
      refine ⟨⟨?_, ?_, ?_, ?_, ?_, ?_⟩, ?_⟩
      · exact objGet_objSpread_isSome obj _ _ p1
      · exact objGet_objSpread_isSome obj _ _ p2
      · exact objGet_objSpread_isSome obj _ _ p3
      · exact objGet_objSpread_isSome obj _ _ p4
      · exact objGet_objSpread_isSome obj _ _ p5
      · exact objGet_objSpread_isSome obj _ _ p6
      · show objGet (objSpread [("date", .str todayStr)] obj) "date" =
          some (.str todayStr)
        rw [objGet_objSpread_of_none obj _ _ hdate]
        rfl

/-- Witness for the amended C1, at a concrete input on the failure path. -/
theorem structuring_populated_amended_witness :
    populatedSix
      (inferStructureFromInput "2026-10-12" "Shipped the importer" LLMResult.fails) ∧
    objGet (inferStructureFromInput "2026-10-12" "Shipped the importer" LLMResult.fails)
      "date" = some (.str "2026-10-12") :=
  structuring_populated_amended "2026-10-12" "Shipped the importer" LLMResult.fails
    (by decide) (fun obj h => nomatch h)

/-- C3 (counterexample): the displayed message does not always equal the
server-provided `result` field when the call resolves with a JSON body: the
source evaluates `result.result || 'Entry submitted successfully!'`, and an
empty-string `result` is falsy in JavaScript, so the canned string is
displayed instead of the provided empty value. -/
theorem submit_result_not_always_verbatim :
    ¬ ∀ (s : ComponentState) (r : String),
        (submitResolve s (FetchResult.jsonBody (some r))).apiResponse = r := by
  intro h
  have h2 := h initialState ""
  revert h2
  decide

/-- C3 (amended): if the persistence call fails at the network level, the
displayed message is the caught error's message prefixed with `Error: ` and
the stage still transitions to `success`; if the call resolves with a JSON
body, the stage transitions to `success` and the displayed message is the
server-provided `result` field whenever that field is present and non-empty,
and the canned string `Entry submitted successfully!` when the server omits
it or provides the (falsy) empty string. -/
theorem submit_outcome_amended (s : ComponentState) :
    (∀ m, (submitResolve s (FetchResult.rejects m)).apiResponse = "Error: " ++ m ∧
      (submitResolve s (FetchResult.rejects m)).stage = Stage.success) ∧
    (∀ r, r ≠ "" →
      (submitResolve s (FetchResult.jsonBody (some r))).apiResponse = r) ∧
    (submitResolve s (FetchResult.jsonBody none)).apiResponse =
      "Entry submitted successfully!" ∧
    (submitResolve s (FetchResult.jsonBody (some ""))).apiResponse =
      "Entry submitted successfully!" ∧
    (∀ ro, (submitResolve s (FetchResult.jsonBody ro)).stage = Stage.success) := by
  refine ⟨fun m => ⟨rfl, rfl⟩, ?_, rfl, rfl, fun ro => rfl⟩
  intro r hr
  simp only [submitResolve, jsStringOr, if_neg hr]

/-- Witness for the amended C3, at a concrete non-empty server message. -/
theorem submit_outcome_amended_witness :
    (submitResolve initialState (FetchResult.jsonBody (some "Entry logged."))).apiResponse =
      "Entry logged." :=
  (submit_outcome_amended initialState).2.1 "Entry logged." (by decide)

/-- C6: editing `tags` or `visibility` through a comma-separated string
stores the ordered sequence obtained by splitting on commas, trimming each
entry and dropping empty or whitespace-only entries, so that
`"a, b ,  , c"` is stored as `["a","b","c"]`; editing any other field stores
the raw value directly. -/
theorem field_edit_list_parsing (prev : RecordObj) (field : String) (s : String) :
    ((field = "tags" ∨ field = "visibility") →
      objGet (handleFieldEdit prev field (.str s)) field =
        some (.arr (((jsSplit s ',').map jsTrim).filter (fun t => t ≠ "")))) ∧
    (field ≠ "tags" → field ≠ "visibility" →
      objGet (handleFieldEdit prev field (.str s)) field = some (.str s)) ∧
    parseListInput "a, b ,  , c" = ["a", "b", "c"] := by
  refine ⟨?_, ?_, by decide⟩
  · intro h
    simp only [handleFieldEdit, if_pos h, parseListInput]
    exact objGet_objSet_self prev field _
  · intro h1 h2
    have h3 : ¬ (field = "tags" ∨ field = "visibility") := by
      rintro (h | h)
      · exact h1 h
      · exact h2 h
    simp only [handleFieldEdit, if_neg h3]
    exact objGet_objSet_self prev field _

/-- Witness for C6, editing `tags` with the claim's concrete string. -/
theorem field_edit_list_parsing_witness :
    objGet (handleFieldEdit [] "tags" (.str "a, b ,  , c")) "tags" =
      some (.arr ["a", "b", "c"]) := by
  have h := (field_edit_list_parsing [] "tags" "a, b ,  , c").1 (Or.inl rfl)
  rw [h]
  decide

/-- C10: a field edit in the review stage changes only the named field of the
structured record — every other field keeps its previous value — and leaves
the raw input text, the stage and the API-response message unchanged. -/
theorem field_edit_frame (s : ComponentState) (h : s.stage = Stage.review)
    (f k : String) (v : FieldValue) (hk : k ≠ f) :
    objGet (step s (Event.fieldEdit f v)).structuredData k =
      objGet s.structuredData k ∧
    (step s (Event.fieldEdit f v)).userInput = s.userInput ∧
    (step s (Event.fieldEdit f v)).stage = s.stage ∧
    (step s (Event.fieldEdit f v)).apiResponse = s.apiResponse := by
  have hstep : step s (Event.fieldEdit f v) =
      { s with structuredData := handleFieldEdit s.structuredData f v } := by
    simp only [step, if_pos h]
  rw [hstep]
  refine ⟨?_, rfl, rfl, rfl⟩
  unfold handleFieldEdit
  by_cases hf : f = "tags" ∨ f = "visibility"
  · simp only [if_pos hf]
    exact objGet_objSet_ne _ _ _ _ hk
  · simp only [if_neg hf]
    exact objGet_objSet_ne _ _ _ _ hk

/-- Witness for C10, editing `title` and observing `date` untouched. -/
theorem field_edit_frame_witness :
    objGet (step
        { initialState with
          stage := Stage.review
          structuredData := [("date", FieldValue.str "2026-10-12")] }
        (Event.fieldEdit "title" (FieldValue.str "New title"))).structuredData
      "date" = some (FieldValue.str "2026-10-12") := by
  have h := (field_edit_frame
    { initialState with
      stage := Stage.review
      structuredData := [("date", FieldValue.str "2026-10-12")] }
    rfl "title" "date" (FieldValue.str "New title") (by decide)).1
  rw [h]
  decide

/-- C4: whenever the component is in the processing stage with the
`shouldProcess` flag raised, a resolving structuring call — whether the LLM
succeeded or the caught-failure fallback produced the record — advances the
stage to `review` with the resolved record stored and leaves the displayed
API-response message untouched (no structuring error is surfaced), while an
unexpected processing exception routes the stage back to `input`. -/
theorem processing_always_reaches_review (s : ComponentState)
    (h1 : s.shouldProcess = true) (h2 : s.stage = Stage.processing) :
    (∀ r, (effectStep s (InferOutcome.resolves r)).stage = Stage.review ∧
      (effectStep s (InferOutcome.resolves r)).structuredData = r ∧
      (effectStep s (InferOutcome.resolves r)).apiResponse = s.apiResponse) ∧
    (effectStep s InferOutcome.unexpected).stage = Stage.input ∧
    (effectStep s InferOutcome.unexpected).apiResponse = s.apiResponse := by
  constructor
  · intro r
    have e1 : effectStep s (InferOutcome.resolves r) =
        { s with structuredData := r, stage := Stage.review, shouldProcess := false } := by
      unfold effectStep
      rw [if_pos (And.intro h1 h2)]
    rw [e1]
    exact ⟨rfl, rfl, rfl⟩
  · have e2 : effectStep s InferOutcome.unexpected =
        { s with stage := Stage.input, shouldProcess := false } := by
      unfold effectStep
      rw [if_pos (And.intro h1 h2)]
    rw [e2]
    exact ⟨rfl, rfl⟩

/-- Witness for C4, from the canonical processing state. -/
theorem processing_always_reaches_review_witness :
    (effectStep
      { initialState with stage := Stage.processing, shouldProcess := true }
      (InferOutcome.resolves (fallbackRecord "2026-10-12" "Shipped it"))).stage =
      Stage.review :=
  ((processing_always_reaches_review
      { initialState with stage := Stage.processing, shouldProcess := true }
      rfl rfl).1 (fallbackRecord "2026-10-12" "Shipped it")).1

/-- C5: the structuring request is single-flight — the Analyze-with-AI
button is disabled whenever the stage is `processing` (a request is
outstanding) or the trimmed input is empty, and the Confirm-and-Submit
button is disabled exactly while `isSubmitting` is true; the processing
effect issues its request exactly once per transition into `processing`:
an enabled submit raises the trigger, one effect run consumes it (so a
repeated run does not fire again), and no event other than the submit click
can raise the `shouldProcess` flag, which is raised only together with the
transition into `processing`. -/
theorem single_flight_structuring (s : ComponentState) :
    (s.stage = Stage.processing ∨ jsTrim s.userInput = "" →
      analyzeDisabled s = true) ∧
    confirmDisabled s = s.isSubmitting ∧
    ((s.stage = Stage.reflection ∨ s.stage = Stage.input) →
      analyzeDisabled s = false →
      effectTriggers (step s Event.submitInput) = true ∧
      (∀ o, effectTriggers (effectStep (step s Event.submitInput) o) = false)) ∧
    (∀ e, s.shouldProcess = false → (step s e).shouldProcess = true →
      e = Event.submitInput ∧ (step s e).stage = Stage.processing) := by
  refine ⟨?_, rfl, ?_, ?_⟩
  · intro h
    unfold analyzeDisabled
    rcases h with h | h
    · rw [h]
      simp
    · rw [h]
      simp
  · intro hst hd
    have htrim : jsTrim s.userInput ≠ "" := by
      intro hq
      unfold analyzeDisabled at hd
      rw [hq] at hd
      simp at hd
    have hguard : (s.stage = Stage.reflection ∨ s.stage = Stage.input) ∧
        analyzeDisabled s = false := ⟨hst, hd⟩
    have hsub : step s Event.submitInput =
        { s with stage := Stage.processing, shouldProcess := true } := by
      simp only [step, if_pos hguard, handleInputSubmit, if_pos htrim]
    rw [hsub]
    constructor
    · rfl
    · intro o
      have hrun : effectStep { s with stage := Stage.processing, shouldProcess := true } o =
          (match o with
           | InferOutcome.resolves r =>
              { s with stage := Stage.review, shouldProcess := false, structuredData := r }
           | InferOutcome.unexpected =>
              { s with stage := Stage.input, shouldProcess := false }) := by
        cases o with
        | resolves r =>
            unfold effectStep
            rw [if_pos (And.intro rfl rfl)]
        | unexpected =>
            unfold effectStep
            rw [if_pos (And.intro rfl rfl)]
      rw [hrun]
      cases o with
      | resolves r => rfl
      | unexpected => rfl
  · intro e hflag hres
    cases e with
    | typeInput t =>
        constructor
        · exfalso
          by_cases hg : s.stage = Stage.reflection ∨ s.stage = Stage.input
          · simp only [step, if_pos hg] at hres
            rw [hflag] at hres
            exact Bool.false_ne_true hres
          · simp only [step, if_neg hg] at hres
            rw [hflag] at hres
            exact Bool.false_ne_true hres
        · exfalso
          by_cases hg : s.stage = Stage.reflection ∨ s.stage = Stage.input
          · simp only [step, if_pos hg] at hres
            rw [hflag] at hres
            exact Bool.false_ne_true hres
          · simp only [step, if_neg hg] at hres
            rw [hflag] at hres
            exact Bool.false_ne_true hres
    | submitInput =>
        refine ⟨rfl, ?_⟩
        by_cases hg : (s.stage = Stage.reflection ∨ s.stage = Stage.input) ∧
            analyzeDisabled s = false
        · simp only [step, if_pos hg, handleInputSubmit] at hres ⊢
          by_cases ht : jsTrim s.userInput ≠ ""
          · rw [if_pos ht] at hres ⊢
          · rw [if_neg ht] at hres
            rw [hflag] at hres
            exact absurd hres Bool.false_ne_true
        · simp only [step, if_neg hg] at hres
          rw [hflag] at hres
          exact absurd hres Bool.false_ne_true
    | effectRun o =>
        exfalso
        simp only [step] at hres
        unfold effectStep at hres
        by_cases hg : s.shouldProcess = true ∧ s.stage = Stage.processing
        · exact absurd hg.1 (by rw [hflag]; exact Bool.false_ne_true)
        · rw [if_neg hg] at hres
          rw [hflag] at hres
          exact Bool.false_ne_true hres
    | editToggle f =>
        exfalso
        by_cases hg : s.stage = Stage.review
        · simp only [step, if_pos hg] at hres
          rw [hflag] at hres
          exact Bool.false_ne_true hres
        · simp only [step, if_neg hg] at hres
          rw [hflag] at hres
          exact Bool.false_ne_true hres
    | fieldEdit f v =>
        exfalso
        by_cases hg : s.stage = Stage.review
        · simp only [step, if_pos hg] at hres
          rw [hflag] at hres
          exact Bool.false_ne_true hres
        · simp only [step, if_neg hg] at hres
          rw [hflag] at hres
          exact Bool.false_ne_true hres
    | backToEdit =>
        exfalso
        by_cases hg : s.stage = Stage.review
        · simp only [step, if_pos hg] at hres
          rw [hflag] at hres
          exact Bool.false_ne_true hres
        · simp only [step, if_neg hg] at hres
          rw [hflag] at hres
          exact Bool.false_ne_true hres
    | confirmStart =>
        exfalso
        by_cases hg : s.stage = Stage.review ∧ confirmDisabled s = false
        · simp only [step, if_pos hg, submitStart] at hres
          rw [hflag] at hres
          exact Bool.false_ne_true hres
        · simp only [step, if_neg hg] at hres
          rw [hflag] at hres
          exact Bool.false_ne_true hres
    | confirmResolve f =>
        exfalso
        by_cases hg : s.isSubmitting = true
        · simp only [step, if_pos hg] at hres
          cases f with
          | rejects m =>
              simp only [submitResolve] at hres
              rw [hflag] at hres
              exact Bool.false_ne_true hres
          | jsonBody r =>
              simp only [submitResolve] at hres
              rw [hflag] at hres
              exact Bool.false_ne_true hres
        · simp only [step, if_neg hg] at hres
          rw [hflag] at hres
          exact Bool.false_ne_true hres
    | reset =>
        exfalso
        by_cases hg : s.stage = Stage.success
        · simp only [step, if_pos hg, resetForm] at hres
          rw [hflag] at hres
          exact Bool.false_ne_true hres
        · simp only [step, if_neg hg] at hres
          rw [hflag] at hres
          exact Bool.false_ne_true hres

/-- Witness for C5: an enabled submit from the initial state with non-empty
input raises the trigger, and one effect run consumes it. -/
theorem single_flight_structuring_witness :
    effectTriggers (step { initialState with userInput := "Shipped it" }
      Event.submitInput) = true ∧
    effectTriggers (effectStep
      (step { initialState with userInput := "Shipped it" } Event.submitInput)
      InferOutcome.unexpected) = false := by
  have h := (single_flight_structuring
    { initialState with userInput := "Shipped it" }).2.2.1
    (Or.inl rfl) (by decide)
  exact ⟨h.1, h.2 InferOutcome.unexpected⟩

/-- The only transition that brings the component from a non-review stage
into the review stage is a processing-effect run whose structuring call
resolved, and it installs the freshly resolved record. -/
theorem review_entry_installs_fresh_record (t : ComponentState) (e : Event)
    (ht : t.stage ≠ Stage.review) (hres : (step t e).stage = Stage.review) :
    ∃ r, e = Event.effectRun (InferOutcome.resolves r) ∧
      (step t e).structuredData = r := by
  cases e with
  | typeInput text =>
      exfalso
      by_cases hg : t.stage = Stage.reflection ∨ t.stage = Stage.input
      · simp only [step, if_pos hg] at hres
        exact ht hres
      · simp only [step, if_neg hg] at hres
        exact ht hres
  | submitInput =>
      exfalso
      by_cases hg : (t.stage = Stage.reflection ∨ t.stage = Stage.input) ∧
          analyzeDisabled t = false
      · simp only [step, if_pos hg, handleInputSubmit] at hres
        by_cases htr : jsTrim t.userInput ≠ ""
        · rw [if_pos htr] at hres
          simp at hres
        · rw [if_neg htr] at hres
          exact ht hres
      · simp only [step, if_neg hg] at hres
        exact ht hres
  | effectRun o =>
      cases o with
      | resolves r =>
          refine ⟨r, rfl, ?_⟩
          simp only [step] at hres ⊢
          unfold effectStep at hres ⊢
          by_cases hg : t.shouldProcess = true ∧ t.stage = Stage.processing
          · rw [if_pos hg]
          · rw [if_neg hg] at hres
            exact absurd hres ht
      | unexpected =>
          exfalso
          simp only [step] at hres
          unfold effectStep at hres
          by_cases hg : t.shouldProcess = true ∧ t.stage = Stage.processing
          · rw [if_pos hg] at hres
            simp at hres
          · rw [if_neg hg] at hres
            exact ht hres
  | editToggle f =>
      exfalso
      by_cases hg : t.stage = Stage.review
      · exact ht hg
      · simp only [step, if_neg hg] at hres
        exact ht hres
  | fieldEdit f v =>
      exfalso
      by_cases hg : t.stage = Stage.review
      · exact ht hg
      · simp only [step, if_neg hg] at hres
        exact ht hres
  | backToEdit =>
      exfalso
      by_cases hg : t.stage = Stage.review
      · exact ht hg
      · simp only [step, if_neg hg] at hres
        exact ht hres
  | confirmStart =>
      exfalso
      by_cases hg : t.stage = Stage.review ∧ confirmDisabled t = false
      · exact ht hg.1
      · simp only [step, if_neg hg] at hres
        exact ht hres
  | confirmResolve f =>
      exfalso
      by_cases hg : t.isSubmitting = true
      · simp only [step, if_pos hg] at hres
        cases f with
        | rejects m => simp [submitResolve] at hres
        | jsonBody r => simp [submitResolve] at hres
      · simp only [step, if_neg hg] at hres
        exact ht hres
  | reset =>
      exfalso
      by_cases hg : t.stage = Stage.success
      · simp only [step, if_pos hg, resetForm] at hres
        exact Stage.noConfusion hres
      · simp only [step, if_neg hg] at hres
        exact ht hres

/-- C7 (counterexample): the Back-to-Edit transition does not discard the
structured record from component state — the handler only sets the stage to
`input`, so a non-empty structured record survives unchanged instead of
being cleared to the empty record. -/
theorem back_to_edit_not_discarding :
    ¬ ∀ (s : ComponentState), s.stage = Stage.review →
        (step s Event.backToEdit).stage = Stage.input ∧
        (step s Event.backToEdit).structuredData = [] ∧
        (step s Event.backToEdit).userInput = s.userInput := by
  intro h
  have h2 := h
    { initialState with
      stage := Stage.review
      structuredData := [("title", FieldValue.str "Shipped it")] } rfl
  revert h2
  decide

/-- C7 (amended): activating Back to Edit in the review stage transitions
the stage from `review` to `input` and leaves the raw input text unchanged;
the structured record is not cleared from memory at that point, but the
derivation is nevertheless abandoned: the only way back into the review
stage is a fresh processing-effect run, which overwrites the record with its
newly resolved derivation. -/
theorem back_to_edit_amended (s : ComponentState) (h : s.stage = Stage.review) :
    (step s Event.backToEdit).stage = Stage.input ∧
    (step s Event.backToEdit).userInput = s.userInput ∧
    (step s Event.backToEdit).structuredData = s.structuredData ∧
    (∀ (t : ComponentState) (e : Event), t.stage ≠ Stage.review →
      (step t e).stage = Stage.review →
      ∃ r, e = Event.effectRun (InferOutcome.resolves r) ∧
        (step t e).structuredData = r) := by
  have hstep : step s Event.backToEdit = { s with stage := Stage.input } := by
    simp only [step, if_pos h]
  rw [hstep]
  exact ⟨rfl, rfl, rfl, review_entry_installs_fresh_record⟩

/-- Witness for the amended C7, at a concrete review-stage state. -/
theorem back_to_edit_amended_witness :
    (step
      { initialState with
        stage := Stage.review
        userInput := "Shipped it"
        structuredData := [("title", FieldValue.str "Shipped it")] }
      Event.backToEdit).stage = Stage.input ∧
    (step
      { initialState with
        stage := Stage.review
        userInput := "Shipped it"
        structuredData := [("title", FieldValue.str "Shipped it")] }
      Event.backToEdit).userInput = "Shipped it" :=
  ⟨(back_to_edit_amended
      { initialState with
        stage := Stage.review
        userInput := "Shipped it"
        structuredData := [("title", FieldValue.str "Shipped it")] } rfl).1,
   (back_to_edit_amended
      { initialState with
        stage := Stage.review
        userInput := "Shipped it"
        structuredData := [("title", FieldValue.str "Shipped it")] } rfl).2.1⟩

/-- C8: activating Log Another Achievement in the success stage resets the
transient state to its initial values — the stage becomes `reflection`, the
raw input and the API-response message become empty, the structured record
becomes the empty record and the edit-field marker becomes null; since the
remaining two hooks (`isSubmitting`, `shouldProcess`) are already false
whenever the success stage was reached by a completed submission, the
post-reset state then equals the initial component state exactly. -/
theorem reset_restores_initial_state (s : ComponentState)
    (h : s.stage = Stage.success) :
    (step s Event.reset).stage = Stage.reflection ∧
    (step s Event.reset).userInput = "" ∧
    (step s Event.reset).structuredData = [] ∧
    (step s Event.reset).editField = none ∧
    (step s Event.reset).apiResponse = "" ∧
    (s.isSubmitting = false → s.shouldProcess = false →
      step s Event.reset = initialState) := by
  have hstep : step s Event.reset =
      { s with
        stage := Stage.reflection
        userInput := ""
        structuredData := []
        editField := none
        apiResponse := "" } := by
    simp only [step, if_pos h, resetForm]
  rw [hstep]
  refine ⟨rfl, rfl, rfl, rfl, rfl, ?_⟩
  intro h1 h2
  cases s
  simp_all [initialState]

/-- Witness for C8, resetting from a canonical success-stage state. -/
theorem reset_restores_initial_state_witness :
    step
      { initialState with
        stage := Stage.success
        apiResponse := "Entry submitted successfully!" }
      Event.reset = initialState :=
  (reset_restores_initial_state
      { initialState with
        stage := Stage.success
        apiResponse := "Entry submitted successfully!" } rfl).2.2.2.2.2 rfl rfl

/-- C9: when the record's `date` field does not parse as an ISO calendar
date, the persistence operation returns a failure result and performs no
file write and no git operation: the working-copy files, the commit log and
the pushed-commit count are all left exactly as they were. -/
theorem add_log_entry_rejects_bad_date (env : ServerEnv) (r : LogRecord)
    (st : RepoState) (h : parseIsoDate r.date = none) :
    (addLogEntry env r st).1.success = false ∧
    (addLogEntry env r st).2 = st := by
  unfold addLogEntry
  rw [h]
  exact ⟨rfl, rfl⟩

/-- Witness for C9, at a concrete record whose date does not parse. -/
theorem add_log_entry_rejects_bad_date_witness :
    (addLogEntry { hasPushToken := true }
      { date := "not-a-date"
        title := "Shipped V2 API!!"
        description := "d"
        tags := ["Achievement"]
        impact_level := "In Progress"
        visibility := ["Internal"]
        resume_bullet := "b" }
      { files := [], commits := [], pushedCount := 0 }).2 =
      { files := [], commits := [], pushedCount := 0 } :=
  (add_log_entry_rejects_bad_date { hasPushToken := true }
    { date := "not-a-date"
      title := "Shipped V2 API!!"
      description := "d"
      tags := ["Achievement"]
      impact_level := "In Progress"
      visibility := ["Internal"]
      resume_bullet := "b" }
    { files := [], commits := [], pushedCount := 0 } (by decide)).2
